import Mathlib

/-
Verification of the NNC depthwise conv2d lowering
(torch/csrc/jit/tensorexpr/operators/conv2d.cpp).

Scalar values carried by buffers are modelled as rationals (exact arithmetic
standing in for float32; numerical-precision concerns are out of scope).
Machine ints are modelled as Lean integers; the C++ truncating integer
division is modelled by Int.tdiv.
-/

/-- Element types of tensors (c10::ScalarType; only the cases the oracle
distinguishes matter: Float versus everything else). -/
inductive ScalarType where
  | Float
  | Double
  | Int
  | Byte
deriving DecidableEq, Repr

/-- A buffer dimension: either a compile-time constant or a symbolic
expression (modelling ExprHandle dims of a BufHandle). -/
inductive DimE where
  | const (i : Int)
  | sym (name : String)
deriving DecidableEq, Repr

/-- Whether a dimension is a compile-time constant (ExprPtr::isConstant). -/
def DimE.isConst : DimE → Bool
  | .const _ => true
  | .sym _ => false

/-- The constant value of a dimension (immediateAs<int>; callers guard
constancy first, the default 0 is never reached on guarded paths). -/
def DimE.constVal : DimE → Int
  | .const i => i
  | .sym _ => 0

/-- A buffer handle: name, dimension list, element dtype. -/
structure BufHandle where
  name : String
  dims : List DimE
  dtype : ScalarType
deriving DecidableEq, Repr

/-- The i-th dimension of a buffer read as a constant
(immediateAs<int>(buf.dim(i))). -/
def dimI (b : BufHandle) (i : Nat) : Int :=
  (b.dims.getD i (.const 0)).constVal

/-- Static shape/dtype metadata of an operand (struct TensorInfo). -/
structure TensorInfo where
  dims : List Int
  dtype : ScalarType
deriving DecidableEq, Repr

/-- Modelled from the spec: `getTensorInfo` (defined in
tensorexpr/operators/misc, not part of src/) extracts static shape/dtype
metadata of a buffer when available, i.e. when every dimension is a
compile-time constant. -/
def getTensorInfo (b : BufHandle) : Option TensorInfo :=
  if b.dims.all DimE.isConst then some ⟨b.dims.map DimE.constVal, b.dtype⟩
  else none

/-- Memory: maps a buffer name and an index list to the stored scalar. -/
def Mem : Type := String → List Int → ℚ

/-- Point update of memory at one buffer element. -/
def updMem (m : Mem) (b : String) (ix : List Int) (v : ℚ) : Mem :=
  fun b2 ix2 => if b2 = b ∧ ix2 = ix then v else m b2 ix2

/-- Initializer function of a reduction: given the output index values
(and memory, for bias loads) produce the seed value (InitFunc). -/
def InitFunc : Type := List Int → Mem → ℚ

/-- Per-element body of the reduction: memory and the index values
n, k, oh, ow, c, r, s produce the contribution. -/
def BodyFunc : Type := Mem → Int → Int → Int → Int → Int → Int → Int → ℚ

/-- CompareSelect::make(a, b, t, f, kLT): t if a < b else f. -/
def compareSelectLT (a b t f : Int) : Int :=
  if a < b then t else f

/-- CompareSelect::make(a, b, t, f, kGE): t if a >= b else f. -/
def compareSelectGE (a b t f : Int) : Int :=
  if a ≥ b then t else f

/-- ifThenElse on a scalar condition: the condition counts as true when
nonzero. -/
def ifThenElseQ (c : Int) (t f : ℚ) : ℚ :=
  if c ≠ 0 then t else f

/-- The per-element contribution of the static builder
(conv2d_depthwise_static, body lambda, conv2d.cpp lines 55-72):
a chain of four CompareSelect boundary tests masks the input load,
and the masked value is multiplied by the weight. -/
def conv_body (input weight : String) (H W stride pad : Int) : BodyFunc :=
  fun m n k oh ow c r s =>
    let cond1 := compareSelectLT (oh * stride - pad + r) 0 1 0
    let cond2 := compareSelectLT (ow * stride - pad + s) 0 1 cond1
    let cond3 := compareSelectGE (oh * stride - pad + r) H 1 cond2
    let cond4 := compareSelectGE (ow * stride - pad + s) W 1 cond3
    let inp := ifThenElseQ cond4 0
      (m input [n, k, oh * stride - pad + r, ow * stride - pad + s])
    inp * m weight [k, c, r, s]

/-- The per-element contribution of the dynamic builder
(conv2d_depthwise_dynamic, body lambda, conv2d.cpp lines 126-143);
textually the same algebra as the static body. -/
def conv_body_dyn (input weight : String) (H W stride pad : Int) : BodyFunc :=
  fun m n k oh ow c r s =>
    let cond1 := compareSelectLT (oh * stride - pad + r) 0 1 0
    let cond2 := compareSelectLT (ow * stride - pad + s) 0 1 cond1
    let cond3 := compareSelectGE (oh * stride - pad + r) H 1 cond2
    let cond4 := compareSelectGE (ow * stride - pad + s) W 1 cond3
    let inp := ifThenElseQ cond4 0
      (m input [n, k, oh * stride - pad + r, ow * stride - pad + s])
    inp * m weight [k, c, r, s]

/-- C1: for every output index (n,k,oh,ow) and reduction index (c,r,s), the
per-element contribution built by both the static and the dynamic builder
equals zero when the computed input offsets fall outside [0,H) x [0,W), and
equals input[n,k,ih,iw] * weight[k,c,r,s] otherwise, with
ih = oh*stride - pad + r and iw = ow*stride - pad + s; in particular the
out-of-bounds contribution is exactly zero regardless of the weight value. -/
theorem conv2d_contribution_spec (input weight : String)
    (H W stride pad : Int) (m : Mem) (n k oh ow c r s : Int) :
    (conv_body input weight H W stride pad m n k oh ow c r s =
      if oh * stride - pad + r < 0 ∨ ow * stride - pad + s < 0 ∨
          H ≤ oh * stride - pad + r ∨ W ≤ ow * stride - pad + s then 0
      else m input [n, k, oh * stride - pad + r, ow * stride - pad + s] *
          m weight [k, c, r, s])
    ∧ conv_body_dyn input weight H W stride pad m n k oh ow c r s =
        conv_body input weight H W stride pad m n k oh ow c r s := by
  constructor
  · unfold conv_body compareSelectLT compareSelectGE ifThenElseQ
    by_cases h1 : oh * stride - pad + r < 0 <;>
      by_cases h2 : ow * stride - pad + s < 0 <;>
        by_cases h3 : H ≤ oh * stride - pad + r <;>
          by_cases h4 : W ≤ ow * stride - pad + s <;>
            simp [h1, h2, h3, h4, ge_iff_le]
  · rfl

/-- An operator argument (torch::jit::tensorexpr::ArgValue, restricted to
the alternatives conv2d uses: a buffer, an int list, or a single int). -/
inductive ArgValue where
  | buf (b : BufHandle)
  | intList (l : List Int)
  | int (i : Int)
deriving DecidableEq, Repr

instance : Inhabited ArgValue := ⟨.int 0⟩

/-- c10::get<BufHandle>: succeeds only on a buffer argument. -/
def ArgValue.getBuf : ArgValue → Option BufHandle
  | .buf b => some b
  | _ => none

/-- c10::get<int64_t>: succeeds only on a single-int argument. -/
def ArgValue.getInt : ArgValue → Option Int
  | .int i => some i
  | _ => none

/-- The helper _pair_int (conv2d.cpp lines 245-251): an int-list argument yields its
first two elements, a single int i yields the pair {i, i}; any other
argument kind makes the c10::get<int64_t> access fail. -/
def _pair_int : ArgValue → Option (List Int)
  | .intList t => some [t.getD 0 0, t.getD 1 0]
  | .int i => some [i, i]
  | .buf _ => none

/-- Check 1 of the oracle: all three operand dtypes are float32. -/
def dtypeCheck (input weight bias : TensorInfo) : Prop :=
  input.dtype = ScalarType.Float ∧ weight.dtype = ScalarType.Float ∧
    bias.dtype = ScalarType.Float

/-- Check 2 of the oracle: input and weight are rank 4, bias is rank 1. -/
def rankCheck (input weight bias : TensorInfo) : Prop :=
  input.dims.length = 4 ∧ weight.dims.length = 4 ∧ bias.dims.length = 1

/-- Check 3 of the oracle: the depthwise condition, input channels equal
weight output channels equal groups and channels-per-group equals 1. -/
def depthwiseCheck (input weight : TensorInfo) (groups : Int) : Prop :=
  input.dims.getD 1 0 = weight.dims.getD 0 0 ∧
    input.dims.getD 1 0 = groups ∧ weight.dims.getD 1 0 = 1

/-- Check 4 of the oracle: the kernel is exactly 3x3. -/
def kernelCheck (weight : TensorInfo) : Prop :=
  weight.dims.getD 2 0 = 3 ∧ weight.dims.getD 3 0 = 3

/-- Check 5 of the oracle: stride is a 2-element isotropic pair. -/
def strideCheck (stride : List Int) : Prop :=
  stride.length = 2 ∧ stride.getD 0 0 = stride.getD 1 0

/-- Check 6 of the oracle: padding is a 2-element isotropic pair. -/
def padCheck (pad : List Int) : Prop :=
  pad.length = 2 ∧ pad.getD 0 0 = pad.getD 1 0

/-- Check 7 of the oracle: dilation is a 2-element pair equal to 1 in both
dimensions. -/
def dilationCheck (dilation : List Int) : Prop :=
  dilation.length = 2 ∧ dilation.getD 0 0 = 1 ∧ dilation.getD 1 0 = 1

/-- conv2dIsSupported (conv2d.cpp lines 253-298): the eligibility predicate
for the specialized depthwise lowering, a chain of early-return rejection
tests. -/
def conv2dIsSupported (input weight bias : TensorInfo)
    (stride pad dilation : List Int) (groups : Int) : Bool :=
  if input.dtype ≠ ScalarType.Float ∨ weight.dtype ≠ ScalarType.Float ∨
      bias.dtype ≠ ScalarType.Float then
    false
  else if input.dims.length ≠ 4 ∨ weight.dims.length ≠ 4 ∨
      bias.dims.length ≠ 1 then
    false
  else if input.dims.getD 1 0 ≠ weight.dims.getD 0 0 ∨
      input.dims.getD 1 0 ≠ groups ∨ weight.dims.getD 1 0 ≠ 1 then
    false
  else if weight.dims.getD 2 0 ≠ 3 ∨ weight.dims.getD 3 0 ≠ 3 then
    false
  else if stride.length ≠ 2 ∨ stride.getD 0 0 ≠ stride.getD 1 0 then
    false
  else if pad.length ≠ 2 ∨ pad.getD 0 0 ≠ pad.getD 1 0 then
    false
  else if dilation.length ≠ 2 ∨ dilation.getD 0 0 ≠ 1 ∨
      dilation.getD 1 0 ≠ 1 then
    false
  else
    true

/-- C2: conv2dIsSupported returns true exactly when all seven checks pass
(dtypes float32; ranks 4/4/1; depthwise condition; 3x3 kernel; isotropic
stride; isotropic padding; unit dilation); consequently flipping any single
check to a failing value while the others pass makes it return false. -/
theorem conv2dIsSupported_iff (input weight bias : TensorInfo)
    (stride pad dilation : List Int) (groups : Int) :
    conv2dIsSupported input weight bias stride pad dilation groups = true ↔
      dtypeCheck input weight bias ∧ rankCheck input weight bias ∧
        depthwiseCheck input weight groups ∧ kernelCheck weight ∧
        strideCheck stride ∧ padCheck pad ∧ dilationCheck dilation := by
  unfold conv2dIsSupported dtypeCheck rankCheck depthwiseCheck kernelCheck
    strideCheck padCheck dilationCheck
  split_ifs with h1 h2 h3 h4 h5 h6 h7 <;>
    simp only [Bool.false_eq_true, false_iff, eq_self_iff_true, true_iff] <;>
    tauto

/-- C10: _pair_int maps a 2-element int-list argument to its first two
elements and a single int i to {i, i}; a scalar-supplied pair {i, i}
has length 2 and is isotropic, so the size and isotropy checks of the
oracle (strideCheck, padCheck) always hold on it. -/
theorem pair_int_spec :
    (∀ a b : Int, _pair_int (.intList [a, b]) = some [a, b])
    ∧ (∀ i : Int, _pair_int (.int i) = some [i, i])
    ∧ (∀ i : Int, strideCheck [i, i] ∧ padCheck [i, i]) := by
  refine ⟨fun a b => rfl, fun i => rfl, fun i => ?_⟩
  constructor <;> exact ⟨rfl, rfl⟩

/-- Modelled from the spec: a loop-nest tree (torch::jit::tensorexpr
statements; the For/Block/Store node types live in the IR layer outside
src/). A loop ranges over [lo, hi); a leaf is a store acting on memory. -/
inductive Nest where
  | seq (a b : Nest)
  | loop (lo hi : Int) (body : Int → Nest)
  | act (f : Mem → Mem)

/-- Run the body f at lo, lo+1, ..., lo+n-1 in order. -/
def evalRange (f : Int → Mem → Mem) : Nat → Int → Mem → Mem
  | 0, _, m => m
  | n + 1, lo, m => evalRange f n (lo + 1) (f lo m)

/-- Modelled from the spec: sequential execution of a loop nest (the IR
evaluation order of the IR layer: loops iterate their range in order). -/
def evalNest : Nest → Mem → Mem
  | .act f, m => f m
  | .seq a b, m => evalNest b (evalNest a m)
  | .loop lo hi body, m =>
      evalRange (fun i mm => evalNest (body i) mm) (hi - lo).toNat lo m

/-- Modelled from the spec: LoopNest::sliceHead (loopnest.cpp, outside
src/) peels the first f iterations of a loop into a preceding head
sub-loop, leaving the remainder as the tail; a factor at least the extent
leaves an empty tail. -/
def sliceHead (f : Nat) : Nest → Nest
  | .loop lo hi body =>
      .seq (.loop lo (min (lo + (f : Int)) hi) body)
        (.loop (lo + (f : Int)) hi body)
  | n => n

/-- Modelled from the spec: LoopNest::sliceTail peels the last f
iterations of a loop into a trailing tail sub-loop. -/
def sliceTail (f : Nat) : Nest → Nest
  | .loop lo hi body =>
      .seq (.loop lo (max lo (hi - (f : Int))) body)
        (.loop (max lo (hi - (f : Int))) hi body)
  | n => n

/-- Apply a transformation to the loop found d loop levels below the root
(the fixed structural position by which the Policy locates the
output-height and output-width loops: kLoopH = 2, kLoopW = 3). -/
def atDepth : Nat → (Nest → Nest) → Nest → Nest
  | 0, t, n => t n
  | d + 1, t, .loop lo hi body => .loop lo hi fun i => atDepth d t (body i)
  | _ + 1, _, n => n

/-- Apply a transformation to the second statement of a sequence (the
tail loop produced by a preceding slice). -/
def onSecond (t : Nest → Nest) : Nest → Nest
  | .seq a b => .seq a (t b)
  | n => n

/-- The loop specialization policy of conv2d_depthwise_static
(conv2d.cpp lines 77-95): under R == 3, stride == 2, pad == 1 peel the
first 2 iterations of the output-width loop and then of the output-height
loop; under R == 3, stride == 1, pad == 1 peel 1 head and 1 tail iteration
of the output-width loop and then of its parent output-height loop;
otherwise leave the nest unmodified. -/
def applyConv2dPolicy (R stride pad : Int) (nest : Nest) : Nest :=
  if R = 3 ∧ stride = 2 ∧ pad = 1 then
    atDepth 2 (sliceHead 2) (atDepth 3 (sliceHead 2) nest)
  else if R = 3 ∧ stride = 1 ∧ pad = 1 then
    atDepth 2 (onSecond (sliceTail 1))
      (atDepth 2 (sliceHead 1)
        (atDepth 3 (onSecond (sliceTail 1))
          (atDepth 3 (sliceHead 1) nest)))
  else
    nest

/-- The per-output-point statement of the reduction realization: the
initializer store followed by the reduction loops over c, r, s that
accumulate the masked contributions into the output buffer. -/
def reducePoint (out : String) (init : InitFunc) (Cg R S : Int)
    (body : BodyFunc) (n k oh ow : Int) : Nest :=
  .seq
    (.act fun m => updMem m out [n, k, oh, ow] (init [n, k, oh, ow] m))
    (.loop 0 Cg fun c => .loop 0 R fun r => .loop 0 S fun s =>
      .act fun m => updMem m out [n, k, oh, ow]
        (m out [n, k, oh, ow] + body m n k oh ow c r s))

/-- Modelled from the spec: the canonical loop nest realizing the Reduce
over output index space (N,n)(K,k)(OH,oh)(OW,ow) and reduction index space
(C/groups,c)(R,r)(S,s) (Tensor/LoopNest construction, outside src/). -/
def reduceLoopNest (N K OH OW : Int) (out : String) (init : InitFunc)
    (Cg R S : Int) (body : BodyFunc) : Nest :=
  .loop 0 N fun n => .loop 0 K fun k => .loop 0 OH fun oh =>
    .loop 0 OW fun ow => reducePoint out init Cg R S body n k oh ow

/-- A named computation: the output buffer together with its defining
statement (class Tensor). -/
inductive StmtM where
  | externalCall (fn : String) (bufArgs : List BufHandle)
      (scalarArgs : List Int)
  | nest (n : Nest)

/-- Tensor: output buffer bound to its defining statement. -/
structure Tensor where
  buf : BufHandle
  stmt : StmtM

/-- The tensor produced on the successful path of the static builder:
its output buffer (shape N, K, OH, OW with OH and OW computed by
truncating integer division) and the policy-transformed reduction nest. -/
def convStaticTensor (input weight : BufHandle) (init_func : InitFunc)
    (stride pad groups : Int) : Tensor :=
  { buf :=
      { name := "conv2d_depthwise"
        dims :=
          [.const (dimI input 0), .const (dimI weight 0),
           .const (Int.tdiv (dimI input 2 - dimI weight 2 + 2 * pad)
               stride + 1),
           .const (Int.tdiv (dimI input 3 - dimI weight 3 + 2 * pad)
               stride + 1)]
        dtype := ScalarType.Float }
    stmt := .nest
      (applyConv2dPolicy (dimI weight 2) stride pad
        (reduceLoopNest (dimI input 0) (dimI weight 0)
          (Int.tdiv (dimI input 2 - dimI weight 2 + 2 * pad) stride + 1)
          (Int.tdiv (dimI input 3 - dimI weight 3 + 2 * pad) stride + 1)
          "conv2d_depthwise" init_func
          (Int.tdiv (dimI input 1) groups) (dimI weight 2) (dimI weight 3)
          (conv_body input.name weight.name (dimI input 2) (dimI input 3)
            stride pad))) }

/-- conv2d_depthwise_static (conv2d.cpp lines 21-98): the static-shape
builder. The TORCH_INTERNAL_ASSERT aborts are modelled as returning none.
Derives N,C,H,W and K,CperG,R,S from the operand shapes, computes
OH and OW by truncating integer division, builds the masked reduction and
applies the loop specialization policy. -/
def conv2d_depthwise_static (input weight : BufHandle) (init_func : InitFunc)
    (stride pad groups : Int) : Option Tensor :=
  if input.dims.length = 4 then
  if weight.dims.length = 4 then
  if input.dims.all DimE.isConst then
  if weight.dims.all DimE.isConst then
  if dimI input 1 = dimI weight 0 ∧ dimI weight 0 = groups ∧
      dimI weight 1 = 1 then
  if dimI weight 2 = dimI weight 3 then
    some (convStaticTensor input weight init_func stride pad groups)
  else none else none else none else none else none else none

/-- conv2d_depthwise_dynamic (conv2d.cpp lines 100-145): the dynamic-shape
builder; only the two rank assertions are made, every extent is a
parameter, and the reduction is returned without any loop transformation. -/
def conv2d_depthwise_dynamic (input weight : BufHandle) (init_func : InitFunc)
    (N C H W K CperG R S stride pad groups : Int) : Option Tensor :=
  if input.dims.length = 4 then
  if weight.dims.length = 4 then
    some
      { buf :=
          { name := "conv2d_depthwise"
            dims :=
              [.const N, .const K,
               .const (Int.tdiv (H - R + pad * 2) stride + 1),
               .const (Int.tdiv (W - S + pad * 2) stride + 1)]
            dtype := ScalarType.Float }
        stmt := .nest
          (reduceLoopNest N K
            (Int.tdiv (H - R + pad * 2) stride + 1)
            (Int.tdiv (W - S + pad * 2) stride + 1)
            "conv2d_depthwise" init_func
            (Int.tdiv C groups) R S
            (conv_body_dyn input.name weight.name H W stride pad)) }
  else none else none

/-- conv2d_depthwise, static overload with bias (conv2d.cpp lines
149-161): asserts the bias dims are constant and seeds the reduction with
the bias value at output-channel index k. -/
def conv2d_depthwise_sb (input weight bias : BufHandle)
    (stride pad groups : Int) : Option Tensor :=
  if bias.dims.all DimE.isConst then
    conv2d_depthwise_static input weight
      (fun v m => m bias.name [v.getD 1 0]) stride pad groups
  else none

/-- conv2d_depthwise, static overload without bias (conv2d.cpp lines
163-173): seeds the reduction with the Sum initializer 0. -/
def conv2d_depthwise_s (input weight : BufHandle)
    (stride pad groups : Int) : Option Tensor :=
  conv2d_depthwise_static input weight (fun _ _ => 0) stride pad groups

/-- conv2d_depthwise, dynamic overload with bias (conv2d.cpp lines
175-209): asserts the bias dims are constant, then calls the dynamic
builder. -/
def conv2d_depthwise_db (input weight bias : BufHandle)
    (N C H W K CperG R S stride pad groups : Int) : Option Tensor :=
  if bias.dims.all DimE.isConst then
    conv2d_depthwise_dynamic input weight
      (fun v m => m bias.name [v.getD 1 0]) N C H W K CperG R S stride pad
      groups
  else none

/-- conv2d_depthwise, dynamic overload without bias (conv2d.cpp lines
211-243): seeds with the Sum initializer 0 and calls the dynamic builder. -/
def conv2d_depthwise_d (input weight : BufHandle)
    (N C H W K CperG R S stride pad groups : Int) : Option Tensor :=
  conv2d_depthwise_dynamic input weight (fun _ _ => 0) N C H W K CperG R S
    stride pad groups

/-- computeConv2d (conv2d.cpp lines 300-345): the dispatcher. Extracts the
operand buffers and scalar parameters, and either takes the specialized
depthwise path (static metadata available for all three operands and the
oracle accepts) or binds the result buffer to an external call naming
nnc_aten_conv2d. -/
def computeConv2d (inputs : List ArgValue) (outputShape : List DimE)
    (outputType : Option ScalarType) : Option Tensor := do
  let dtype := outputType.getD ScalarType.Float
  let ResultBuf : BufHandle := ⟨"conv", outputShape, dtype⟩
  let inp ← (inputs.getD 0 default).getBuf
  let w ← (inputs.getD 1 default).getBuf
  let b ← (inputs.getD 2 default).getBuf
  let strides ← _pair_int (inputs.getD 3 default)
  let padding ← _pair_int (inputs.getD 4 default)
  let dilation ← _pair_int (inputs.getD 5 default)
  let groups ← (inputs.getD 6 default).getInt
  match getTensorInfo inp, getTensorInfo w, getTensorInfo b with
  | some inpInfo, some wInfo, some bInfo =>
      if conv2dIsSupported inpInfo wInfo bInfo strides padding dilation
          groups then
        conv2d_depthwise_sb inp w b (strides.getD 0 0) (padding.getD 0 0)
          groups
      else
        some ⟨ResultBuf, .externalCall ("nnc_aten_conv2d") [inp, w, b]
          [strides.getD 0 0, strides.getD 1 0, padding.getD 0 0,
           padding.getD 1 0, dilation.getD 0 0, dilation.getD 1 0, groups]⟩
  | _, _, _ =>
      some ⟨ResultBuf, .externalCall ("nnc_aten_conv2d") [inp, w, b]
        [strides.getD 0 0, strides.getD 1 0, padding.getD 0 0,
         padding.getD 1 0, dilation.getD 0 0, dilation.getD 1 0, groups]⟩

lemma evalRange_congr (f g : Int → Mem → Mem)
    (h : ∀ i m, f i m = g i m) :
    ∀ (n : Nat) (lo : Int) (m : Mem),
      evalRange f n lo m = evalRange g n lo m := by
  intro n
  induction n with
  | zero => intro lo m; rfl
  | succ n ih =>
      intro lo m
      simp only [evalRange, h]
      exact ih (lo + 1) (g lo m)

lemma evalRange_add (f : Int → Mem → Mem) (a : Nat) :
    ∀ (b : Nat) (lo : Int) (m : Mem),
      evalRange f (a + b) lo m = evalRange f b (lo + a) (evalRange f a lo m) := by
  induction a with
  | zero => intro b lo m; simp [evalRange]
  | succ a ih =>
      intro b lo m
      have h1 : a + 1 + b = (a + b) + 1 := by omega
      have h2 : lo + ((a : Int) + 1) = (lo + 1) + a := by ring
      rw [h1]
      simp only [evalRange, Nat.cast_add, Nat.cast_one, h2]
      exact ih b (lo + 1) (f lo m)

lemma eval_sliceHead (f : Nat) (n : Nest) (m : Mem) :
    evalNest (sliceHead f n) m = evalNest n m := by
  cases n with
  | seq a b => rfl
  | act g => rfl
  | loop lo hi body =>
      simp only [sliceHead, evalNest]
      rcases le_or_lt hi (lo + (f : Int)) with h | h
      · have h1 : (hi - (lo + (f : Int))).toNat = 0 := by omega
        have h2 : min (lo + (f : Int)) hi = hi := by omega
        rw [h1, h2]
        rfl
      · have h2 : min (lo + (f : Int)) hi = lo + (f : Int) := by omega
        have h3 : (lo + (f : Int) - lo).toNat = f := by omega
        have h4 : (hi - lo).toNat = f + (hi - (lo + (f : Int))).toNat := by
          omega
        rw [h2, h3, h4, evalRange_add]

lemma eval_sliceTail (f : Nat) (n : Nest) (m : Mem) :
    evalNest (sliceTail f n) m = evalNest n m := by
  cases n with
  | seq a b => rfl
  | act g => rfl
  | loop lo hi body =>
      simp only [sliceTail, evalNest]
      rcases le_or_lt (hi - (f : Int)) lo with h | h
      · have h1 : max lo (hi - (f : Int)) = lo := by omega
        have h2 : (lo - lo).toNat = 0 := by omega
        rw [h1, h2]
        rfl
      · have h1 : max lo (hi - (f : Int)) = hi - (f : Int) := by omega
        have h2 : (hi - (f : Int) - lo).toNat + f = (hi - lo).toNat := by
          omega
        have h3 : (hi - (hi - (f : Int))).toNat = f := by omega
        have h4 : hi - (f : Int) = lo + ((hi - (f : Int) - lo).toNat : Int) := by
          omega
        rw [h1, h3, ← h2, evalRange_add]
        rw [← h4]

lemma eval_atDepth (t : Nest → Nest)
    (ht : ∀ n m, evalNest (t n) m = evalNest n m) :
    ∀ (d : Nat) (n : Nest) (m : Mem),
      evalNest (atDepth d t n) m = evalNest n m := by
  intro d
  induction d with
  | zero => intro n m; exact ht n m
  | succ d ih =>
      intro n m
      cases n with
      | seq a b => rfl
      | act g => rfl
      | loop lo hi body =>
          simp only [atDepth, evalNest]
          exact evalRange_congr _ _ (fun i mm => ih (body i) mm) _ lo m

lemma eval_onSecond (t : Nest → Nest)
    (ht : ∀ n m, evalNest (t n) m = evalNest n m) (n : Nest) (m : Mem) :
    evalNest (onSecond t n) m = evalNest n m := by
  cases n with
  | seq a b => simp only [onSecond, evalNest, ht]
  | act g => rfl
  | loop lo hi body => rfl

lemma eval_applyConv2dPolicy (R stride pad : Int) (n : Nest) (m : Mem) :
    evalNest (applyConv2dPolicy R stride pad n) m = evalNest n m := by
  unfold applyConv2dPolicy
  split_ifs with h1 h2
  · rw [eval_atDepth _ (eval_sliceHead 2), eval_atDepth _ (eval_sliceHead 2)]
  · rw [eval_atDepth _ (eval_onSecond _ (eval_sliceTail 1)),
      eval_atDepth _ (eval_sliceHead 1),
      eval_atDepth _ (eval_onSecond _ (eval_sliceTail 1)),
      eval_atDepth _ (eval_sliceHead 1)]
  · rfl

/-- C4: the loop specialization policy never changes the computed output:
evaluating the transformed loop nest of the static lowering gives exactly
the same memory contents as evaluating the untransformed reduction nest,
for every (R,stride,pad) combination, whether a slicing rule matched or
not (and in particular for every configuration the oracle accepts). -/
theorem conv2d_sliced_equals_unsliced (R stride pad : Int)
    (N K OH OW : Int) (out : String) (init : InitFunc) (Cg S : Int)
    (body : BodyFunc) (m : Mem) :
    evalNest
      (applyConv2dPolicy R stride pad
        (reduceLoopNest N K OH OW out init Cg R S body)) m =
      evalNest (reduceLoopNest N K OH OW out init Cg R S body) m :=
  eval_applyConv2dPolicy R stride pad _ m

/-- A trivial initializer used to instantiate policy-shape facts. -/
def zeroInit : InitFunc := fun _ _ => 0

/-- A trivial reduction body used to instantiate policy-shape facts. -/
def zeroBody : BodyFunc := fun _ _ _ _ _ _ _ _ => 0

/-- C6: with R = 3, stride = 2, pad = 1 the policy applies exactly Rule A:
it peels the first 2 iterations of the output-width loop (located by fixed
structural position) into a preceding head sub-loop, then does the same to
the output-height loop, and nothing else; and when neither Rule A nor
Rule B matches, the loop nest is returned unmodified. -/
theorem conv2d_policy_ruleA (N K OH OW : Int) (out : String)
    (init : InitFunc) (Cg S : Int) (body : BodyFunc) :
    (applyConv2dPolicy 3 2 1 (reduceLoopNest N K OH OW out init Cg 3 S body) =
      .loop 0 N fun n => .loop 0 K fun k =>
        .seq
          (.loop 0 (min 2 OH) fun oh =>
            .seq
              (.loop 0 (min 2 OW) fun ow =>
                reducePoint out init Cg 3 S body n k oh ow)
              (.loop 2 OW fun ow =>
                reducePoint out init Cg 3 S body n k oh ow))
          (.loop 2 OH fun oh =>
            .seq
              (.loop 0 (min 2 OW) fun ow =>
                reducePoint out init Cg 3 S body n k oh ow)
              (.loop 2 OW fun ow =>
                reducePoint out init Cg 3 S body n k oh ow)))
    ∧ (∀ R2 stride2 pad2 : Int, ¬(R2 = 3 ∧ stride2 = 2 ∧ pad2 = 1) →
        ¬(R2 = 3 ∧ stride2 = 1 ∧ pad2 = 1) →
        applyConv2dPolicy R2 stride2 pad2
            (reduceLoopNest N K OH OW out init Cg 3 S body) =
          reduceLoopNest N K OH OW out init Cg 3 S body) := by
  constructor
  · rfl
  · intro R2 stride2 pad2 h1 h2
    unfold applyConv2dPolicy
    rw [if_neg h1, if_neg h2]

/-- Closed instance of the no-match clause of the Rule A policy theorem. -/
theorem conv2d_policy_ruleA_witness :
    applyConv2dPolicy 3 3 0
        (reduceLoopNest 1 4 6 6 "conv2d_depthwise" zeroInit 1 3 3 zeroBody) =
      reduceLoopNest 1 4 6 6 "conv2d_depthwise" zeroInit 1 3 3 zeroBody :=
  (conv2d_policy_ruleA 1 4 6 6 "conv2d_depthwise" zeroInit 1 3 zeroBody).2
    3 3 0 (by decide) (by decide)

/-- C7: with R = 3, stride = 1, pad = 1 the policy applies exactly Rule B:
it peels 1 iteration off the head and 1 off the tail of the output-width
loop of the nests writing to the output buffer, then peels 1 head and 1
tail iteration of the immediate parent of that loop, the output-height loop. -/
theorem conv2d_policy_ruleB (N K OH OW : Int) (out : String)
    (init : InitFunc) (Cg S : Int) (body : BodyFunc) :
    applyConv2dPolicy 3 1 1 (reduceLoopNest N K OH OW out init Cg 3 S body) =
      .loop 0 N fun n => .loop 0 K fun k =>
        .seq
          (.loop 0 (min 1 OH) fun oh =>
            .seq
              (.loop 0 (min 1 OW) fun ow =>
                reducePoint out init Cg 3 S body n k oh ow)
              (.seq
                (.loop 1 (max 1 (OW - 1)) fun ow =>
                  reducePoint out init Cg 3 S body n k oh ow)
                (.loop (max 1 (OW - 1)) OW fun ow =>
                  reducePoint out init Cg 3 S body n k oh ow)))
          (.seq
            (.loop 1 (max 1 (OH - 1)) fun oh =>
              .seq
                (.loop 0 (min 1 OW) fun ow =>
                  reducePoint out init Cg 3 S body n k oh ow)
                (.seq
                  (.loop 1 (max 1 (OW - 1)) fun ow =>
                    reducePoint out init Cg 3 S body n k oh ow)
                  (.loop (max 1 (OW - 1)) OW fun ow =>
                    reducePoint out init Cg 3 S body n k oh ow)))
            (.loop (max 1 (OH - 1)) OH fun oh =>
              .seq
                (.loop 0 (min 1 OW) fun ow =>
                  reducePoint out init Cg 3 S body n k oh ow)
                (.seq
                  (.loop 1 (max 1 (OW - 1)) fun ow =>
                    reducePoint out init Cg 3 S body n k oh ow)
                  (.loop (max 1 (OW - 1)) OW fun ow =>
                    reducePoint out init Cg 3 S body n k oh ow)))) := by
  rfl

lemma conv2d_depthwise_static_eq (input weight : BufHandle)
    (init : InitFunc) (stride pad groups : Int)
    (hl1 : input.dims.length = 4) (hl2 : weight.dims.length = 4)
    (hc1 : input.dims.all DimE.isConst = true)
    (hc2 : weight.dims.all DimE.isConst = true)
    (hdw : dimI input 1 = dimI weight 0 ∧ dimI weight 0 = groups ∧
      dimI weight 1 = 1)
    (hrs : dimI weight 2 = dimI weight 3) :
    conv2d_depthwise_static input weight init stride pad groups =
      some (convStaticTensor input weight init stride pad groups) := by
  unfold conv2d_depthwise_static
  rw [if_pos hl1, if_pos hl2, if_pos hc1, if_pos hc2, if_pos hdw, if_pos hrs]

lemma conv2d_depthwise_dynamic_eq (input weight : BufHandle)
    (init : InitFunc) (N C H W K CperG R S stride pad groups : Int)
    (hl1 : input.dims.length = 4) (hl2 : weight.dims.length = 4) :
    conv2d_depthwise_dynamic input weight init N C H W K CperG R S stride pad
        groups =
      some
        { buf :=
            { name := "conv2d_depthwise"
              dims :=
                [.const N, .const K,
                 .const (Int.tdiv (H - R + pad * 2) stride + 1),
                 .const (Int.tdiv (W - S + pad * 2) stride + 1)]
              dtype := ScalarType.Float }
          stmt := .nest
            (reduceLoopNest N K
              (Int.tdiv (H - R + pad * 2) stride + 1)
              (Int.tdiv (W - S + pad * 2) stride + 1)
              "conv2d_depthwise" init
              (Int.tdiv C groups) R S
              (conv_body_dyn input.name weight.name H W stride pad)) } := by
  unfold conv2d_depthwise_dynamic
  rw [if_pos hl1, if_pos hl2]

/-- C5: both builder variants compute the output spatial extents by the
same integer-division formula OH = (H - R + 2*pad)/stride + 1 and
OW = (W - S + 2*pad)/stride + 1 (truncating division); when the quotient
is exact the truncating division agrees with the floor division of the
formula; and neither code path checks divisibility: each succeeds under
its shape preconditions for every (H,R,pad,stride) combination. -/
theorem conv2d_output_extent_formula :
    (∀ (input weight : BufHandle) (init : InitFunc) (stride pad groups : Int),
      input.dims.length = 4 → weight.dims.length = 4 →
      input.dims.all DimE.isConst = true →
      weight.dims.all DimE.isConst = true →
      (dimI input 1 = dimI weight 0 ∧ dimI weight 0 = groups ∧
        dimI weight 1 = 1) →
      dimI weight 2 = dimI weight 3 →
      (conv2d_depthwise_static input weight init stride pad groups).map
          (fun t => t.buf.dims) =
        some [.const (dimI input 0), .const (dimI weight 0),
          .const (Int.tdiv (dimI input 2 - dimI weight 2 + 2 * pad)
              stride + 1),
          .const (Int.tdiv (dimI input 3 - dimI weight 3 + 2 * pad)
              stride + 1)])
    ∧ (∀ (input weight : BufHandle) (init : InitFunc)
        (N C H W K CperG R S stride pad groups : Int),
        input.dims.length = 4 → weight.dims.length = 4 →
        (conv2d_depthwise_dynamic input weight init N C H W K CperG R S
            stride pad groups).map (fun t => t.buf.dims) =
          some [.const N, .const K,
            .const (Int.tdiv (H - R + pad * 2) stride + 1),
            .const (Int.tdiv (W - S + pad * 2) stride + 1)])
    ∧ (∀ x stride : Int, stride ≠ 0 → stride ∣ x →
        Int.tdiv x stride + 1 = Int.fdiv x stride + 1) := by
  refine ⟨?_, ?_, ?_⟩
  · intro input weight init stride pad groups hl1 hl2 hc1 hc2 hdw hrs
    rw [conv2d_depthwise_static_eq input weight init stride pad groups hl1
      hl2 hc1 hc2 hdw hrs]
    rfl
  · intro input weight init N C H W K CperG R S stride pad groups hl1 hl2
    rw [conv2d_depthwise_dynamic_eq input weight init N C H W K CperG R S
      stride pad groups hl1 hl2]
    rfl
  · intro x stride hs hdvd
    obtain ⟨q, rfl⟩ := hdvd
    rw [Int.mul_tdiv_cancel_left q hs, Int.mul_fdiv_cancel_left q hs]

/-- Concrete 1x4x8x8 float input buffer. -/
def inputC : BufHandle :=
  ⟨"input", [.const 1, .const 4, .const 8, .const 8], ScalarType.Float⟩

/-- Concrete 4x1x3x3 float weight buffer. -/
def weightC : BufHandle :=
  ⟨"weight", [.const 4, .const 1, .const 3, .const 3], ScalarType.Float⟩

/-- Concrete 4x1x5x5 float weight buffer (rejected by the 3x3 check). -/
def weight55 : BufHandle :=
  ⟨"weight", [.const 4, .const 1, .const 5, .const 5], ScalarType.Float⟩

/-- Concrete rank-1 float bias buffer. -/
def biasC : BufHandle := ⟨"bias", [.const 4], ScalarType.Float⟩

/-- A bias buffer with a symbolic dimension. -/
def biasSym : BufHandle := ⟨"bias", [.sym ("Cb")], ScalarType.Float⟩

/-- An input buffer with fully symbolic dimensions. -/
def inputSym : BufHandle :=
  ⟨"input", [.sym ("N"), .sym ("C"), .sym ("H"), .sym ("W")], ScalarType.Float⟩

/-- A weight buffer with fully symbolic dimensions. -/
def weightSym : BufHandle :=
  ⟨"weight", [.sym ("K"), .sym ("Cg"), .sym ("R"), .sym ("S")], ScalarType.Float⟩

/-- Closed instance of the extent-formula theorem: stride 3 does not
divide H - R + 2*pad = 5, yet the static builder succeeds and returns the
truncated extents. -/
theorem conv2d_output_extent_formula_witness :
    (conv2d_depthwise_static inputC weightC zeroInit 3 0 4).map
        (fun t => t.buf.dims) =
      some [.const 1, .const 4, .const 2, .const 2] :=
  conv2d_output_extent_formula.1 inputC weightC zeroInit 3 0 4 (by decide)
    (by decide) (by decide) (by decide) (by decide) (by decide)

/-- C3: whenever static metadata is unavailable for input, weight, or
bias, or the oracle rejects the configuration, computeConv2d never takes
the builder path: it returns the result buffer bound to an external call
naming nnc_aten_conv2d, forwarding the three operand buffers and the
scalar arguments in the order stride_h, stride_w, pad_h, pad_w,
dilation_h, dilation_w, groups, and no error occurs (the result is some). -/
theorem computeConv2d_fallback (inputs : List ArgValue)
    (outputShape : List DimE) (outputType : Option ScalarType)
    (inp w b : BufHandle) (strides padding dilation : List Int)
    (groups : Int)
    (h0 : (inputs.getD 0 default).getBuf = some inp)
    (h1 : (inputs.getD 1 default).getBuf = some w)
    (h2 : (inputs.getD 2 default).getBuf = some b)
    (h3 : _pair_int (inputs.getD 3 default) = some strides)
    (h4 : _pair_int (inputs.getD 4 default) = some padding)
    (h5 : _pair_int (inputs.getD 5 default) = some dilation)
    (h6 : (inputs.getD 6 default).getInt = some groups)
    (hrej : getTensorInfo inp = none ∨ getTensorInfo w = none ∨
      getTensorInfo b = none ∨
      ∃ ii wi bi, getTensorInfo inp = some ii ∧ getTensorInfo w = some wi ∧
        getTensorInfo b = some bi ∧
        conv2dIsSupported ii wi bi strides padding dilation groups = false) :
    computeConv2d inputs outputShape outputType =
      some ⟨⟨"conv", outputShape, outputType.getD ScalarType.Float⟩,
        .externalCall ("nnc_aten_conv2d") [inp, w, b]
          [strides.getD 0 0, strides.getD 1 0, padding.getD 0 0,
           padding.getD 1 0, dilation.getD 0 0, dilation.getD 1 0,
           groups]⟩ := by
  unfold computeConv2d
  rw [h0, h1, h2, h3, h4, h5, h6]
  simp only [Option.bind_eq_bind, Option.some_bind]
  rcases hrej with h | h | h | ⟨ii, wi, bi, hi, hw, hb, hs⟩
  · rw [h]
  · rw [h]
    rcases getTensorInfo inp with _ | ii <;>
      rcases getTensorInfo b with _ | bi <;> rfl
  · rw [h]
    rcases getTensorInfo inp with _ | ii <;>
      rcases getTensorInfo w with _ | wi <;> rfl
  · rw [hi, hw, hb]
    simp only [hs, Bool.false_eq_true, if_false]

/-- Closed instance of the fallback theorem: a 5x5 kernel with otherwise
valid depthwise setup is rejected by the oracle and dispatched to the
external call. -/
theorem computeConv2d_fallback_witness :
    computeConv2d
        [.buf inputC, .buf weight55, .buf biasC, .int 1, .int 1, .int 1,
         .int 4]
        [.const 1, .const 4, .const 8, .const 8] none =
      some ⟨⟨"conv", [.const 1, .const 4, .const 8, .const 8],
          ScalarType.Float⟩,
        .externalCall ("nnc_aten_conv2d") [inputC, weight55, biasC]
          [1, 1, 1, 1, 1, 1, 4]⟩ :=
  computeConv2d_fallback _ _ _ inputC weight55 biasC [1, 1] [1, 1] [1, 1] 4
    rfl rfl rfl rfl rfl rfl rfl
    (Or.inr (Or.inr (Or.inr
      ⟨⟨[1, 4, 8, 8], ScalarType.Float⟩, ⟨[4, 1, 5, 5], ScalarType.Float⟩,
       ⟨[4], ScalarType.Float⟩, rfl, rfl, rfl, by decide⟩)))

lemma getD_map_constVal (l : List DimE) :
    ∀ j : Nat, (l.map DimE.constVal).getD j 0 = (l.getD j (.const 0)).constVal := by
  induction l with
  | nil => intro j; rfl
  | cons a l ih =>
      intro j
      cases j with
      | zero => rfl
      | succ j => exact ih j

lemma getTensorInfo_some (b : BufHandle) (info : TensorInfo)
    (h : getTensorInfo b = some info) :
    b.dims.all DimE.isConst = true ∧ info.dims = b.dims.map DimE.constVal ∧
      info.dtype = b.dtype := by
  unfold getTensorInfo at h
  by_cases hc : b.dims.all DimE.isConst = true
  · rw [if_pos hc] at h
    cases h
    exact ⟨hc, rfl, rfl⟩
  · rw [if_neg hc] at h
    cases h

/-- C9: whenever the dispatcher takes the specialized path (static
metadata available for all three operands and the oracle accepting), the
result is exactly that of the static builder, and every assertion inside the
static builder holds, so its aborting branch is unreachable: the builder
returns some tensor. -/
theorem computeConv2d_static_path_safe (inputs : List ArgValue)
    (outputShape : List DimE) (outputType : Option ScalarType)
    (inp w b : BufHandle) (strides padding dilation : List Int)
    (groups : Int) (ii wi bi : TensorInfo)
    (h0 : (inputs.getD 0 default).getBuf = some inp)
    (h1 : (inputs.getD 1 default).getBuf = some w)
    (h2 : (inputs.getD 2 default).getBuf = some b)
    (h3 : _pair_int (inputs.getD 3 default) = some strides)
    (h4 : _pair_int (inputs.getD 4 default) = some padding)
    (h5 : _pair_int (inputs.getD 5 default) = some dilation)
    (h6 : (inputs.getD 6 default).getInt = some groups)
    (hi : getTensorInfo inp = some ii)
    (hw : getTensorInfo w = some wi)
    (hb : getTensorInfo b = some bi)
    (hok : conv2dIsSupported ii wi bi strides padding dilation groups =
      true) :
    computeConv2d inputs outputShape outputType =
      conv2d_depthwise_sb inp w b (strides.getD 0 0) (padding.getD 0 0)
        groups
    ∧ conv2d_depthwise_sb inp w b (strides.getD 0 0) (padding.getD 0 0)
        groups =
      some (convStaticTensor inp w
        (fun v m => m b.name [v.getD 1 0]) (strides.getD 0 0)
        (padding.getD 0 0) groups) := by
  obtain ⟨hic, hid, _⟩ := getTensorInfo_some inp ii hi
  obtain ⟨hwc, hwd, _⟩ := getTensorInfo_some w wi hw
  obtain ⟨hbc, hbd, _⟩ := getTensorInfo_some b bi hb
  obtain ⟨_, hrank, hdw, hker, _, _, _⟩ :=
    (conv2dIsSupported_iff ii wi bi strides padding dilation groups).mp hok
  have hil : inp.dims.length = 4 := by
    have := hrank.1
    rw [hid, List.length_map] at this
    exact this
  have hwl : w.dims.length = 4 := by
    have := hrank.2.1
    rw [hwd, List.length_map] at this
    exact this
  have hinp1 : ii.dims.getD 1 0 = dimI inp 1 := by
    rw [hid, getD_map_constVal]; rfl
  have hw0 : wi.dims.getD 0 0 = dimI w 0 := by
    rw [hwd, getD_map_constVal]; rfl
  have hw1 : wi.dims.getD 1 0 = dimI w 1 := by
    rw [hwd, getD_map_constVal]; rfl
  have hw2 : wi.dims.getD 2 0 = dimI w 2 := by
    rw [hwd, getD_map_constVal]; rfl
  have hw3 : wi.dims.getD 3 0 = dimI w 3 := by
    rw [hwd, getD_map_constVal]; rfl
  have hsb : conv2d_depthwise_sb inp w b (strides.getD 0 0)
      (padding.getD 0 0) groups =
      some (convStaticTensor inp w (fun v m => m b.name [v.getD 1 0])
        (strides.getD 0 0) (padding.getD 0 0) groups) := by
    unfold conv2d_depthwise_sb
    rw [if_pos hbc]
    exact conv2d_depthwise_static_eq inp w _ _ _ groups hil hwl hic hwc
      ⟨by rw [← hinp1, ← hw0]; exact hdw.1,
       by rw [← hw0, ← hdw.1]; exact hdw.2.1,
       by rw [← hw1]; exact hdw.2.2⟩
      (by rw [← hw2, ← hw3, hker.1, hker.2])
  constructor
  · unfold computeConv2d
    rw [h0, h1, h2, h3, h4, h5, h6]
    simp only [Option.bind_eq_bind, Option.some_bind]
    rw [hi, hw, hb]
    simp only [hok, if_true]
  · exact hsb

/-- Closed instance of the specialized-path safety theorem at the
concrete accepted configuration input 1x4x8x8, weight 4x1x3x3, bias 4,
stride 1, pad 1, groups 4. -/
theorem computeConv2d_static_path_safe_witness :
    computeConv2d
        [.buf inputC, .buf weightC, .buf biasC, .int 1, .int 1, .int 1,
         .int 4]
        [.const 1, .const 4, .const 8, .const 8] none =
      conv2d_depthwise_sb inputC weightC biasC 1 1 4
    ∧ conv2d_depthwise_sb inputC weightC biasC 1 1 4 =
      some (convStaticTensor inputC weightC
        (fun v m => m biasC.name [v.getD 1 0]) 1 1 4) :=
  computeConv2d_static_path_safe _ _ _ inputC weightC biasC [1, 1] [1, 1]
    [1, 1] 4 ⟨[1, 4, 8, 8], ScalarType.Float⟩
    ⟨[4, 1, 3, 3], ScalarType.Float⟩ ⟨[4], ScalarType.Float⟩
    rfl rfl rfl rfl rfl rfl rfl rfl rfl rfl (by decide)

/-- C8 counterexample: the dynamic-shape overload taking a bias DOES make
a constant-shape assertion on the bias operand (assert_dims_constant(bias),
conv2d.cpp line 190): with a symbolic bias dimension the call aborts,
while the identical call with a constant bias dimension succeeds. -/
theorem conv2d_depthwise_dynamic_bias_assert_cex :
    conv2d_depthwise_db inputSym weightSym biasSym 1 4 8 8 4 1 3 3 1 1 4 =
        none
    ∧ (conv2d_depthwise_db inputSym weightSym biasC 1 4 8 8 4 1 3 3 1 1 4
        ).isSome = true := by
  constructor <;> rfl

/-- C8 (amended): the dynamic-shape builder makes no constant-shape
assertion on input or weight (only the two rank assertions; the result is
the same for symbolic dimensions), attempts no loop transformation (the
returned statement is the untransformed reduction nest), and builds the
same reduction algebra as the static variant; however, the bias-taking
overload asserts that the bias dimensions are constant and aborts
otherwise. -/
theorem conv2d_depthwise_dynamic_amended :
    (∀ (input weight : BufHandle) (init : InitFunc)
      (N C H W K CperG R S stride pad groups : Int),
      input.dims.length = 4 → weight.dims.length = 4 →
      conv2d_depthwise_dynamic input weight init N C H W K CperG R S stride
          pad groups =
        some
          { buf :=
              { name := "conv2d_depthwise"
                dims :=
                  [.const N, .const K,
                   .const (Int.tdiv (H - R + pad * 2) stride + 1),
                   .const (Int.tdiv (W - S + pad * 2) stride + 1)]
                dtype := ScalarType.Float }
            stmt := .nest
              (reduceLoopNest N K
                (Int.tdiv (H - R + pad * 2) stride + 1)
                (Int.tdiv (W - S + pad * 2) stride + 1)
                "conv2d_depthwise" init
                (Int.tdiv C groups) R S
                (conv_body_dyn input.name weight.name H W stride pad)) })
    ∧ (∀ (input weight bias : BufHandle)
        (N C H W K CperG R S stride pad groups : Int),
        bias.dims.all DimE.isConst = false →
        conv2d_depthwise_db input weight bias N C H W K CperG R S stride pad
            groups = none)
    ∧ (∀ (input weight : String) (H W stride pad : Int),
        conv_body_dyn input weight H W stride pad =
          conv_body input weight H W stride pad) := by
  refine ⟨?_, ?_, ?_⟩
  · intro input weight init N C H W K CperG R S stride pad groups hl1 hl2
    exact conv2d_depthwise_dynamic_eq input weight init N C H W K CperG R S
      stride pad groups hl1 hl2
  · intro input weight bias N C H W K CperG R S stride pad groups hbc
    unfold conv2d_depthwise_db
    simp only [hbc, Bool.false_eq_true, if_false]
  · intro input weight H W stride pad
    rfl

/-- Closed instance of the amended dynamic-builder theorem at fully
symbolic operand shapes. -/
theorem conv2d_depthwise_dynamic_amended_witness :
    conv2d_depthwise_dynamic inputSym weightSym zeroInit 1 4 8 8 4 1 3 3 1 1
        4 =
      some
        { buf :=
            { name := "conv2d_depthwise"
              dims := [.const 1, .const 4, .const 8, .const 8]
              dtype := ScalarType.Float }
          stmt := .nest
            (reduceLoopNest 1 4 8 8 "conv2d_depthwise" zeroInit 1 3 3
              (conv_body_dyn ("input") ("weight") 8 8 1 1)) } :=
  conv2d_depthwise_dynamic_amended.1 inputSym weightSym zeroInit 1 4 8 8 4 1
    3 3 1 1 4 rfl rfl
